import Mathlib

/-!
Verification of `qa/L0_perf_nomodel/perf_analysis.py`.

The script compares two directories of performance-result CSV files
(baseline vs under-test) and prints a per-platform, per-metric delta report
at a chosen concurrency level.

The embedding models:
  * a directory as a list of `DirFile` (name, `os.path.isfile` flag, and the
    CSV content already split into rows of fields, i.e. the stream produced
    by `csv.reader`);
  * Python `dict` as an insertion-ordered association list with
    insert-or-overwrite (`dictSet`), matching CPython semantics where
    updating an existing key keeps its position;
  * Python exceptions (`ValueError` from `int`/`float`, `ZeroDivisionError`,
    `TypeError` from `zip(None, _)`, `IndexError` from `row[0]`, `KeyError`
    from `d[k]`) as `Except String`;
  * Python `float` arithmetic by exact rational arithmetic over `ℚ`.
-/

namespace PerfAnalysis

/-- `CONCURRENCY` constant from the script. -/
def CONCURRENCY : String := "Concurrency"

/-- `INFERPERSEC` constant from the script. -/
def INFERPERSEC : String := "Inferences/Second"

/-- A directory entry: the filename, whether `os.path.isfile` holds, and the
rows produced by `csv.reader` on the file's content. -/
structure DirFile where
  name : String
  isFile : Bool
  rows : List (List String)
  deriving Repr, DecidableEq

/-- A Python dict with string keys, as an insertion-ordered association list. -/
abbrev Dict (α : Type) := List (String × α)

/-- `m[k]` lookup returning an `Option` (models `k in m` / `m.get(k)`). -/
def dictFind? {α : Type} (m : Dict α) (k : String) : Option α :=
  (m.find? (fun p => p.1 = k)).map Prod.snd

/-- `m[k] = v`: overwrite in place if the key exists (CPython keeps the
original insertion position), otherwise append. -/
def dictSet {α : Type} (m : Dict α) (k : String) (v : α) : Dict α :=
  if m.any (fun p => p.1 = k) then
    m.map (fun p => if p.1 = k then (k, v) else p)
  else
    m ++ [(k, v)]

/-- Keys of a dict, in iteration order. -/
def dictKeys {α : Type} (m : Dict α) : List String := m.map Prod.fst

/-- Value of a run of decimal digit characters. -/
def digitsVal (l : List Char) : Nat :=
  l.foldl (fun n c => n * 10 + (c.toNat - 48)) 0

/-- Python `int(s)` on a string: optional sign followed by at least one
decimal digit (leading zeros allowed); otherwise `ValueError` (`none`). -/
def pyIntParse (s : String) : Option Int :=
  match s.toList with
  | '-' :: r => if r ≠ [] ∧ r.all Char.isDigit then some (-(digitsVal r : Int)) else none
  | '+' :: r => if r ≠ [] ∧ r.all Char.isDigit then some ((digitsVal r : Int)) else none
  | r       => if r ≠ [] ∧ r.all Char.isDigit then some ((digitsVal r : Int)) else none

/-- Python `float(s)` on a plain decimal string: optional sign, an integer
part and/or a fractional part separated by `.`, at least one digit overall;
otherwise `ValueError` (`none`). The numeric value is exact (`ℚ`). -/
def pyFloatParse (s : String) : Option ℚ :=
  let signed : (ℚ × List Char) :=
    match s.toList with
    | '-' :: r => (-1, r)
    | '+' :: r => (1, r)
    | r       => (1, r)
  let sg := signed.1
  let body := signed.2
  let ip := body.takeWhile Char.isDigit
  let rest := body.dropWhile Char.isDigit
  match rest with
  | [] => if ip = [] then none else some (sg * (digitsVal ip : ℚ))
  | '.' :: fp =>
      if fp.all Char.isDigit ∧ (ip ≠ [] ∨ fp ≠ []) then
        some (sg * ((digitsVal ip : ℚ) + (digitsVal fp : ℚ) / (10 ^ fp.length)))
      else none
  | _ => none

/-- `int(s)` raising `ValueError` on failure. -/
def pyInt (s : String) : Except String Int :=
  match pyIntParse s with
  | some i => .ok i
  | none => .error "ValueError"

/-- `float(s)` raising `ValueError` on failure. -/
def pyFloat (s : String) : Except String ℚ :=
  match pyFloatParse s with
  | some q => .ok q
  | none => .error "ValueError"

/-- `a / b` on floats, raising `ZeroDivisionError` when `b` is zero. -/
def pyDiv (a b : ℚ) : Except String ℚ :=
  if b = 0 then .error "ZeroDivisionError" else .ok (a / b)

/-- `row[0]`, raising `IndexError` on an empty row. -/
def pyIndex0 (row : List String) : Except String String :=
  match row with
  | [] => .error "IndexError"
  | x :: _ => .ok x

/-- `d[k]`, raising `KeyError` when the key is absent. -/
def pySubscript {α : Type} (m : Dict α) (k : String) : Except String α :=
  match dictFind? m k with
  | some v => .ok v
  | none => .error "KeyError"

/-- Python `s.endswith(suffix)`, on the code-point sequences. -/
def endswith (s suffix : String) : Bool :=
  suffix.toList.isSuffixOf s.toList

/-- Python string `<`: lexicographic comparison of code-point sequences. -/
def pyStrLt : List Char → List Char → Bool
  | [], [] => false
  | [], _ :: _ => true
  | _ :: _, [] => false
  | a :: as, b :: bs =>
      if a.toNat < b.toNat then true
      else if b.toNat < a.toNat then false
      else pyStrLt as bs

/-- Python string `<=`, the comparison used by `list.sort()` on strings. -/
def pyStrLe (a b : String) : Bool := ! pyStrLt b.toList a.toList

/-- Platform name: `f.split('_')[0]`, the prefix of the filename before the
first underscore (the whole name when there is no underscore). -/
def platformOf (f : String) : String :=
  String.mk (f.toList.takeWhile (fun c => c ≠ '_'))

/-- Body of the first loop of `read_results` for one directory entry: a
regular file ending in `".csv"` is recorded under its platform prefix
(overwriting any earlier file with the same prefix); anything else is
silently ignored. -/
def scanStep (csvs : Dict DirFile) (f : DirFile) : Dict DirFile :=
  if f.isFile ∧ endswith f.name ".csv" then dictSet csvs (platformOf f.name) f
  else csvs

/-- First loop of `read_results`: build the `csvs` dict mapping each platform
to its file, scanning the directory listing in order; a later file with the
same platform prefix overwrites the earlier entry. -/
def buildCsvs (files : List DirFile) : Dict DirFile :=
  files.foldl scanStep []

/-- The row-scanning loop of `read_results` after the header has been read:
return the first row whose first column parses as an integer equal to
`concurrency` (`int(row[0]) == concurrency`), `none` when no row matches.
`row[0]` on an empty row raises `IndexError`; `int` on a non-numeric first
column raises `ValueError`. -/
def findConcurrencyRow (concurrency : Int) :
    List (List String) → Except String (Option (List String))
  | [] => .ok none
  | row :: rest => do
      let s ← pyIndex0 row
      let i ← pyInt s
      if i = concurrency then .ok (some row) else findConcurrencyRow concurrency rest

/-- `for header, result in zip(header_row, concurrency_row): d[header] = result`:
pair the header names with the selected row's values, truncating to the
shorter list; a duplicated header keeps its position and takes the later
value. -/
def zipToDict (headers vals : List String) : Dict String :=
  (List.zip headers vals).foldl (fun d p => dictSet d p.1 p.2) []

/-- Body of the second loop of `read_results` for one file: read the header
row, scan for the concurrency row, and build the metrics dict.  When the
header or the matching row is missing the script prints a warning and then
evaluates `zip(header_row, concurrency_row)` with a `None` argument, which
raises `TypeError`. -/
def parseFile (concurrency : Int) (rows : List (List String)) :
    Except String (Dict String) :=
  match rows with
  | [] => .error "TypeError"
  | header :: rest => do
      let crow ← findConcurrencyRow concurrency rest
      match crow with
      | none => .error "TypeError"
      | some r => .ok (zipToDict header r)

/-- Second loop of `read_results`: process the `csvs` entries in order,
adding `results[platform]`.  The keys of `csvs` are distinct, so appending
in scan order coincides with dict insertion.  An exception from any file
propagates out of the whole function. -/
def processCsvs (concurrency : Int) :
    List (String × DirFile) → Except String (Dict (Dict String))
  | [] => .ok []
  | (platform, f) :: rest => do
      let d ← parseFile concurrency f.rows
      let tail ← processCsvs concurrency rest
      .ok ((platform, d) :: tail)

/-- `read_results(concurrency, path)`: map each platform (filename prefix of
a regular `*.csv` file in the directory) to the metrics dict extracted at
the given concurrency level. -/
def read_results (concurrency : Int) (files : List DirFile) :
    Except String (Dict (Dict String)) :=
  processCsvs concurrency (buildCsvs files)

/-- `lower_is_better(name)`. -/
def lower_is_better (name : String) : Bool := name ≠ INFERPERSEC

/-- ANSI escapes from `get_delta`. -/
def GREEN : String := "\x1b[92m"

/-- ANSI escape for regressions. -/
def RED : String := "\x1b[91m"

/-- ANSI reset escape, also used as the neutral (zero-delta) marker. -/
def ENDC : String := "\x1b[0m"

/-- Two-digit zero-padded decimal string. -/
def pad2 (n : Nat) : String :=
  if n < 10 then "0" ++ toString n else toString n

/-- `"{:.2f}".format(x)`: render a rational with exactly two decimal places,
rounding half to even as Python's float formatting does. -/
def fmt2 (q : ℚ) : String :=
  let sign := if q < 0 then "-" else ""
  let x := |q| * 100
  let fl := x.floor
  let frac := x - (fl : ℚ)
  let n : Nat :=
    if frac > 1/2 then fl.toNat + 1
    else if frac < 1/2 then fl.toNat
    else if fl.toNat % 2 = 0 then fl.toNat else fl.toNat + 1
  sign ++ toString (n / 100) ++ "." ++ pad2 (n % 100)

/-- Result of `get_delta`: the numeric delta percentage, the colour marker
chosen from its sign, and the rendered cell text. -/
structure DeltaResult where
  delta : ℚ
  color : String
  text : String
  deriving Repr, DecidableEq

/-- `get_delta(name, baseline, result)`: parse both values as floats, form
the direction-aware speedup ratio, and render `speedup*100 - 100` as a
percentage tagged red (< 0), green (> 0) or neutral (= 0).  `float` on a
non-numeric string raises `ValueError`; a zero divisor raises
`ZeroDivisionError`; both propagate, uncaught. -/
def get_delta (name baseline result : String) : Except String DeltaResult := do
  let speedup ←
    if lower_is_better name then do
      let b ← pyFloat baseline
      let r ← pyFloat result
      pyDiv b r
    else do
      let r ← pyFloat result
      let b ← pyFloat baseline
      pyDiv r b
  let delta := speedup * 100 - 100
  let color := if delta < 0 then RED else if delta > 0 then GREEN else ENDC
  .ok ⟨delta, color, color ++ fmt2 delta ++ "%" ++ ENDC⟩

/-- The comparison `list.sort()` uses on strings, as a decidable relation. -/
def strLe (a b : String) : Prop := pyStrLe a b = true

instance : DecidableRel strLe :=
  fun a b => instDecidableEqBool (pyStrLe a b) true

/-- The metric display order of `latency_analysis`: the under-test row's
metric names without `Concurrency` and `Inferences/Second`, sorted
ascending by `list.sort()` (a stable comparison sort), with
`Inferences/Second` appended last. -/
def ordered_names (undertest_result : Dict String) : List String :=
  ((dictKeys undertest_result).filter
      (fun n => n ≠ CONCURRENCY ∧ n ≠ INFERPERSEC)).insertionSort strLe
    ++ [INFERPERSEC]

/-- The concurrency-mismatch warning condition of `latency_analysis`:
the platform has a baseline row, both rows contain a `Concurrency` entry,
and the two stored strings differ. -/
def concurrency_warning (baseline_result : Option (Dict String))
    (undertest_result : Dict String) : Bool :=
  match baseline_result with
  | none => false
  | some b =>
      match dictFind? b CONCURRENCY, dictFind? undertest_result CONCURRENCY with
      | some bc, some uc => bc ≠ uc
      | _, _ => false

/-- One printed metric row: the name, the baseline cell (`none` renders as
`"<none>"`), the under-test value, and the delta cell when one is computed. -/
structure MetricLine where
  name : String
  baseline : Option String
  result : String
  delta : Option DeltaResult
  deriving Repr, DecidableEq

/-- Body of the metric loop of `latency_analysis` for one name: look up the
under-test value (`undertest_result[name]`, `KeyError` if absent), then
either print the `<none>` placeholder row or compute the delta. -/
def render_line (baseline_result : Option (Dict String))
    (undertest_result : Dict String) (name : String) :
    Except String MetricLine := do
  let result ← pySubscript undertest_result name
  match baseline_result with
  | none => .ok ⟨name, none, result, none⟩
  | some b =>
      match dictFind? b name with
      | none => .ok ⟨name, none, result, none⟩
      | some bv => do
          let d ← get_delta name bv result
          .ok ⟨name, some bv, result, some d⟩

/-- The metric loop of `latency_analysis`, over the display names in order;
an exception from any row propagates and aborts the loop. -/
def render_lines (baseline_result : Option (Dict String))
    (undertest_result : Dict String) :
    List String → Except String (List MetricLine)
  | [] => .ok []
  | name :: rest => do
      let line ← render_line baseline_result undertest_result name
      let tail ← render_lines baseline_result undertest_result rest
      .ok (line :: tail)

/-- The per-platform body of `latency_analysis`: the concurrency warning
flag and the rendered metric rows. -/
def platform_report (baseline_result : Option (Dict String))
    (undertest_result : Dict String) :
    Except String (Bool × List MetricLine) := do
  let lines ← render_lines baseline_result undertest_result
    (ordered_names undertest_result)
  .ok (concurrency_warning baseline_result undertest_result, lines)

/-- `latency_analysis(...)`: iterate the platforms of the under-test results
in order, producing for each its section (platform name, warning flag,
metric rows).  Any exception aborts the whole report. -/
def latency_analysis (baseline_results : Dict (Dict String)) :
    Dict (Dict String) → Except String (List (String × Bool × List MetricLine))
  | [] => .ok []
  | (platform, undertest_result) :: rest => do
      let pr ← platform_report (dictFind? baseline_results platform) undertest_result
      let tail ← latency_analysis baseline_results rest
      .ok ((platform, pr.1, pr.2) :: tail)

/-- Specification-side characterisation used to state last-wins: the last
directory entry (in listing order) that is a regular `*.csv` file with the
given platform prefix. -/
def lastScannedMatch (p : String) (files : List DirFile) : Option DirFile :=
  (files.filter (fun f => f.isFile && endswith f.name ".csv" && platformOf f.name = p)).getLast?

/-! ### The Python string order coincides with the lexicographic order -/

theorem pyStrLt_iff_lex : ∀ as bs : List Char, pyStrLt as bs = true ↔ List.Lex (· < ·) as bs
  | [], [] => by
      simp only [pyStrLt, Bool.false_eq_true, false_iff]
      exact List.Lex.not_nil_right _ _
  | [], _ :: _ => by
      simp only [pyStrLt, true_iff]
      exact List.Lex.nil
  | _ :: _, [] => by
      simp only [pyStrLt, Bool.false_eq_true, false_iff]
      exact List.Lex.not_nil_right _ _
  | a :: as, b :: bs => by
      rcases Nat.lt_trichotomy a.toNat b.toNat with h | h | h
      · simp only [pyStrLt, if_pos h, true_iff]
        exact List.Lex.rel h
      · have hab : a = b := Char.ext (UInt32.toNat.inj h)
        subst hab
        simp only [pyStrLt, if_neg (lt_irrefl a.toNat)]
        rw [pyStrLt_iff_lex as bs]
        constructor
        · exact List.Lex.cons
        · intro hl
          cases hl with
          | cons h' => exact h'
          | rel h' => exact absurd h' (lt_irrefl a)
      · have hne : a ≠ b := fun e => absurd (e ▸ h) (lt_irrefl _)
        simp only [pyStrLt, if_neg (Nat.lt_asymm h), if_pos h, Bool.false_eq_true, false_iff]
        intro hl
        cases hl with
        | cons _ => exact hne rfl
        | rel h' => exact absurd h' (Nat.lt_asymm h)

theorem pyStrLe_iff_le (a b : String) : pyStrLe a b = true ↔ a ≤ b := by
  have h1 : pyStrLe a b = true ↔ ¬ (pyStrLt b.toList a.toList = true) := by
    simp [pyStrLe]
  rw [h1, pyStrLt_iff_lex, String.le_iff_toList_le]
  exact @not_lt (List Char) _ b.toList a.toList

instance : IsTrans String strLe :=
  ⟨fun a b c hab hbc =>
    (pyStrLe_iff_le a c).mpr
      (le_trans ((pyStrLe_iff_le a b).mp hab) ((pyStrLe_iff_le b c).mp hbc))⟩

instance : IsTotal String strLe :=
  ⟨fun a b =>
    (le_total a b).imp (pyStrLe_iff_le a b).mpr (pyStrLe_iff_le b a).mpr⟩

/-! ### Generic reduction lemmas for the exception monad -/

@[simp] theorem ok_bind {α β : Type} (a : α) (f : α → Except String β) :
    (Except.ok a >>= f) = f a := rfl

@[simp] theorem error_bind {α β : Type} (e : String) (f : α → Except String β) :
    ((Except.error e : Except String α) >>= f) = Except.error e := rfl

/-! ### Claims -/

/-- C1: the claim says `read_results` never raises on a per-file parse
problem (missing header, no row matching the requested concurrency, or a
first column that does not parse as an integer), instead warning and
leaving the platform's mapping empty.  The code prints the warning but then
evaluates `zip(header_row, concurrency_row)` with a `None` argument, which
raises `TypeError`; a non-integer first column raises `ValueError` from
`int(row[0])` with no warning at all.  This theorem evaluates the code at
the three failing inputs: a header-only file, a file with a non-integer
first column, and a file with no row at the requested concurrency. -/
theorem C1_read_results_raises_on_parse_problem :
    read_results 1 [⟨"modelA_results.csv", true,
        [["Concurrency", "Latency", "Inferences/Second"]]⟩] = .error "TypeError"
    ∧ read_results 1 [⟨"modelA_results.csv", true,
        [["Concurrency", "Latency"], ["high", "10"]]⟩] = .error "ValueError"
    ∧ read_results 2 [⟨"modelA_results.csv", true,
        [["Concurrency", "Latency"], ["1", "10"]]⟩] = .error "TypeError" := by
  refine ⟨?_, ?_, ?_⟩ <;> with_unfolding_all rfl

/-- C2 counterexample: with a zero divisor (`result` 0 for the
lower-is-better metric `"Latency"`, or `baseline` 0 for
`"Inferences/Second"`), `get_delta` propagates `ZeroDivisionError` rather
than producing any value, refuting the claim that the division by zero does
not propagate as an unhandled error out of the delta computation. -/
theorem C2_counterexample :
    get_delta "Latency" "10" "0" = .error "ZeroDivisionError"
    ∧ ¬ (∃ v, get_delta "Latency" "10" "0" = .ok v)
    ∧ get_delta "Inferences/Second" "0" "125" = .error "ZeroDivisionError"
    ∧ ¬ (∃ v, get_delta "Inferences/Second" "0" "125" = .ok v) := by
  refine ⟨by with_unfolding_all rfl, ?_, by with_unfolding_all rfl, ?_⟩
  · rintro ⟨v, hv⟩
    rw [show get_delta "Latency" "10" "0" = .error "ZeroDivisionError" from
      by with_unfolding_all rfl] at hv
    exact Except.noConfusion hv
  · rintro ⟨v, hv⟩
    rw [show get_delta "Inferences/Second" "0" "125" = .error "ZeroDivisionError" from
      by with_unfolding_all rfl] at hv
    exact Except.noConfusion hv

/-- C2 amended: when both value strings parse as floats and the divisor
(the under-test value for a lower-is-better metric, the baseline for
`"Inferences/Second"`) is zero, `get_delta` raises `ZeroDivisionError`,
which propagates as an unhandled error out of the delta computation. -/
theorem C2_amended_zero_divisor_raises (name baseline result : String)
    (b r : ℚ) (hb : pyFloatParse baseline = some b)
    (hr : pyFloatParse result = some r) :
    (lower_is_better name = true → r = 0 →
      get_delta name baseline result = .error "ZeroDivisionError")
    ∧ (lower_is_better name = false → b = 0 →
      get_delta name baseline result = .error "ZeroDivisionError") := by
  constructor
  · intro hlib hr0
    subst hr0
    simp [get_delta, hlib, pyFloat, hb, hr, pyDiv]
  · intro hlib hb0
    subst hb0
    simp [get_delta, hlib, pyFloat, hb, hr, pyDiv]

/-- Witness for C2 amended, at metric `"Latency"`, baseline `"10"`,
under-test value `"0"`. -/
theorem C2_amended_zero_divisor_raises_witness :
    get_delta "Latency" "10" "0" = .error "ZeroDivisionError" :=
  (C2_amended_zero_divisor_raises "Latency" "10" "0" 10 0
    (by with_unfolding_all rfl) (by with_unfolding_all rfl)).1 rfl rfl

/-- C7: for any metric name and any value string parsing to a positive
number, `get_delta` on equal baseline and under-test values yields a delta
of exactly zero, tagged with the neutral marker (the plain `ENDC` escape,
not the green improvement or red regression colour), rendered as
`"0.00%"`. -/
theorem C7_equal_values_zero_delta (name s : String) (x : ℚ)
    (hx : pyFloatParse s = some x) (hpos : 0 < x) :
    get_delta name s s = .ok ⟨0, ENDC, ENDC ++ "0.00%" ++ ENDC⟩ := by
  have hx0 : x ≠ 0 := ne_of_gt hpos
  have hdiv : x / x = 1 := div_self hx0
  have hfmt : fmt2 0 = "0.00" := by with_unfolding_all rfl
  by_cases hlib : lower_is_better name = true
  · simp only [get_delta, hlib, if_true, pyFloat, hx, pyDiv, if_neg hx0, hdiv, ok_bind]
    norm_num [hfmt]
    with_unfolding_all rfl
  · simp only [get_delta, hlib, Bool.false_eq_true, if_false, pyFloat, hx, pyDiv,
      if_neg hx0, hdiv, ok_bind]
    norm_num [hfmt]
    with_unfolding_all rfl

/-- Witness for C7 at metric `"Latency"` and value string `"5"`. -/
theorem C7_equal_values_zero_delta_witness :
    get_delta "Latency" "5" "5" = .ok ⟨0, ENDC, ENDC ++ "0.00%" ++ ENDC⟩ :=
  C7_equal_values_zero_delta "Latency" "5" 5 (by with_unfolding_all rfl)
    (by norm_num)

/-- C10: a regular `.csv` file whose name contains no underscore is not
ignored; `f.split('_')[0]` returns the whole filename, so the file is
loaded under a platform name equal to the full filename, extension
included.  Concretely, a directory holding only `foo.csv` yields the single
platform key `"foo.csv"`. -/
theorem C10_no_underscore_platform_is_whole_name (s : String)
    (h : '_' ∉ s.toList) :
    platformOf s = s
    ∧ read_results 1 [⟨"foo.csv", true, [["Concurrency", "Latency"], ["1", "7"]]⟩]
        = .ok [("foo.csv", [("Concurrency", "1"), ("Latency", "7")])] := by
  constructor
  · have htake : s.toList.takeWhile (fun c => c ≠ '_') = s.toList := by
      apply List.takeWhile_eq_self_iff.mpr
      intro c hc
      simp only [ne_eq, decide_eq_true_eq]
      exact fun e => h (e ▸ hc)
    cases s with
    | mk data => simpa [platformOf] using congrArg String.mk htake
  · with_unfolding_all rfl

/-- Witness for C10 at the underscore-free filename `"foo.csv"`. -/
theorem C10_no_underscore_platform_is_whole_name_witness :
    platformOf "foo.csv" = "foo.csv" :=
  (C10_no_underscore_platform_is_whole_name "foo.csv" (by decide)).1

/-- C4: the displayed metric order is the under-test row's metric names
without `"Concurrency"` and `"Inferences/Second"`, sorted ascending in the
lexicographic string order, with `"Inferences/Second"` appended in the
final position; on the metric set
`{"Concurrency", "Inferences/Second", "Latency", "Memory"}` the order is
exactly `["Latency", "Memory", "Inferences/Second"]`. -/
theorem C4_display_order (u : Dict String) :
    ∃ l, ordered_names u = l ++ [INFERPERSEC]
      ∧ List.Sorted (· ≤ ·) l
      ∧ l.Perm ((dictKeys u).filter (fun n => n ≠ CONCURRENCY ∧ n ≠ INFERPERSEC))
      ∧ ordered_names [("Concurrency", "1"), ("Inferences/Second", "100"),
          ("Latency", "10"), ("Memory", "5")]
        = ["Latency", "Memory", "Inferences/Second"] := by
  refine ⟨((dictKeys u).filter
      (fun n => n ≠ CONCURRENCY ∧ n ≠ INFERPERSEC)).insertionSort strLe,
    rfl, ?_, ?_, by rfl⟩
  · exact (List.sorted_insertionSort strLe _).imp
      (fun h => (pyStrLe_iff_le _ _).mp h)
  · exact List.perm_insertionSort strLe _

/-- Evaluation of `get_delta` when both values parse and the divisor is
nonzero: the computation succeeds and the delta is the direction-aware
speedup times 100 minus 100. -/
theorem get_delta_ok_delta (name baseline result : String) (b r : ℚ)
    (hb : pyFloatParse baseline = some b) (hr : pyFloatParse result = some r)
    (hdiv : (if lower_is_better name = true then r else b) ≠ 0) :
    ∃ dr, get_delta name baseline result = .ok dr
      ∧ dr.delta = (if lower_is_better name = true then b / r else r / b) * 100 - 100 := by
  by_cases hlib : lower_is_better name = true
  · have hr0 : r ≠ 0 := by simpa [hlib] using hdiv
    simp only [get_delta, hlib, if_true, pyFloat, hb, hr, ok_bind, pyDiv, if_neg hr0]
    exact ⟨_, rfl, rfl⟩
  · have hb0 : b ≠ 0 := by simpa [hlib] using hdiv
    simp only [get_delta, hlib, if_false, pyFloat, hb, hr, ok_bind, pyDiv, if_neg hb0]
    exact ⟨_, rfl, rfl⟩

/-- C6 counterexample: for the lower-is-better metric `"Latency"` with
positive baseline 10 and under-test value −5 (strictly less than the
baseline), the delta is −300, not strictly positive, refuting the claim as
stated (it quantifies over every under-test value less than the baseline,
with only the baseline required positive). -/
theorem C6_counterexample :
    (0 : ℚ) < 10 ∧ (-5 : ℚ) < 10 ∧ lower_is_better "Latency" = true
    ∧ get_delta "Latency" "10" "-5" = .ok ⟨-300, RED, RED ++ "-300.00%" ++ ENDC⟩
    ∧ ¬ (0 : ℚ) < -300 :=
  ⟨by norm_num, by norm_num, rfl, by with_unfolding_all rfl, by norm_num⟩

/-- C6 amended: sign-monotonicity of `get_delta` for positive values.  For
a lower-is-better metric with positive baseline and positive under-test
value, an under-test value below the baseline gives a strictly positive
delta and one above gives a strictly negative delta; for
`"Inferences/Second"` (positive baseline) the signs are inverted. -/
theorem C6_amended_sign_monotonic (name baseline result : String) (b r : ℚ)
    (hb : pyFloatParse baseline = some b) (hr : pyFloatParse result = some r)
    (hbpos : 0 < b) :
    (lower_is_better name = true → 0 < r →
      ((r < b → ∃ dr, get_delta name baseline result = .ok dr ∧ 0 < dr.delta)
        ∧ (b < r → ∃ dr, get_delta name baseline result = .ok dr ∧ dr.delta < 0)))
    ∧ (lower_is_better name = false →
      ((b < r → ∃ dr, get_delta name baseline result = .ok dr ∧ 0 < dr.delta)
        ∧ (r < b → ∃ dr, get_delta name baseline result = .ok dr ∧ dr.delta < 0))) := by
  constructor
  · intro hlib hrpos
    have hdiv : (if lower_is_better name = true then r else b) ≠ 0 := by
      simp [hlib]; exact ne_of_gt hrpos
    obtain ⟨dr, hdr, hdelta⟩ := get_delta_ok_delta name baseline result b r hb hr hdiv
    rw [if_pos hlib] at hdelta
    constructor
    · intro hlt
      refine ⟨dr, hdr, ?_⟩
      have hs : 1 < b / r := (one_lt_div hrpos).mpr hlt
      rw [hdelta]; linarith
    · intro hlt
      refine ⟨dr, hdr, ?_⟩
      have hs : b / r < 1 := (div_lt_one hrpos).mpr hlt
      rw [hdelta]; linarith
  · intro hlib
    have hlib' : ¬ lower_is_better name = true := by simp [hlib]
    have hdiv : (if lower_is_better name = true then r else b) ≠ 0 := by
      simp [hlib']; exact ne_of_gt hbpos
    obtain ⟨dr, hdr, hdelta⟩ := get_delta_ok_delta name baseline result b r hb hr hdiv
    rw [if_neg hlib'] at hdelta
    constructor
    · intro hlt
      refine ⟨dr, hdr, ?_⟩
      have hs : 1 < r / b := (one_lt_div hbpos).mpr hlt
      rw [hdelta]; linarith
    · intro hlt
      refine ⟨dr, hdr, ?_⟩
      have hs : r / b < 1 := (div_lt_one hbpos).mpr hlt
      rw [hdelta]; linarith

/-- Witness for C6 amended: metric `"Latency"`, baseline `"10"`, under-test
`"8"` (a latency improvement) gives a strictly positive delta. -/
theorem C6_amended_sign_monotonic_witness :
    ∃ dr, get_delta "Latency" "10" "8" = .ok dr ∧ 0 < dr.delta :=
  ((C6_amended_sign_monotonic "Latency" "10" "8" 10 8 (by with_unfolding_all rfl)
      (by with_unfolding_all rfl) (by norm_num)).1 rfl (by norm_num)).1 (by norm_num)

/-! ### Helper lemmas about dict lookup and the reporting loops -/

/-- A key is listed by `dictKeys` exactly when `dictFind?` returns a value. -/
theorem mem_dictKeys_iff {α : Type} (m : Dict α) (p : String) :
    p ∈ dictKeys m ↔ ∃ v, dictFind? m p = some v := by
  induction m with
  | nil => simp [dictKeys, dictFind?]
  | cons a m ih =>
      obtain ⟨q, w⟩ := a
      by_cases hpq : q = p
      · subst hpq
        simp [dictKeys, dictFind?]
      · simp only [dictKeys, List.map_cons, List.mem_cons]
        rw [show dictFind? ((q, w) :: m) p = dictFind? m p from by
          simp [dictFind?, List.find?, hpq]]
        simpa [Ne.symm hpq, dictKeys] using ih

/-- If any metric row of the loop fails, `render_lines` does not succeed;
equivalently, success of `render_lines` means every listed name rendered. -/
theorem render_lines_ok_mem (b? : Option (Dict String)) (u : Dict String) :
    ∀ names ls, render_lines b? u names = .ok ls →
      ∀ name ∈ names, ∃ line, render_line b? u name = .ok line := by
  intro names
  induction names with
  | nil => intro ls _ name hmem; simp at hmem
  | cons n rest ih =>
      intro ls h name hmem
      rw [render_lines] at h
      cases hline : render_line b? u n with
      | error e => rw [hline, error_bind] at h; exact Except.noConfusion h
      | ok line =>
          rw [hline, ok_bind] at h
          rcases List.mem_cons.mp hmem with hn | hn
          · exact ⟨line, hn ▸ hline⟩
          · cases htail : render_lines b? u rest with
            | error e => rw [htail, error_bind] at h; exact Except.noConfusion h
            | ok ls' => exact ih ls' htail name hn

/-- Success of `latency_analysis` means every under-test platform's section
was produced. -/
theorem latency_analysis_ok_mem (bres : Dict (Dict String)) :
    ∀ ures rep, latency_analysis bres ures = .ok rep →
      ∀ p u, (p, u) ∈ ures →
        ∃ pr, platform_report (dictFind? bres p) u = .ok pr := by
  intro ures
  induction ures with
  | nil => intro rep _ p u hmem; simp at hmem
  | cons pu rest ih =>
      obtain ⟨q, v⟩ := pu
      intro rep h p u hmem
      rw [latency_analysis] at h
      cases hpr : platform_report (dictFind? bres q) v with
      | error e => rw [hpr, error_bind] at h; exact Except.noConfusion h
      | ok pr =>
          rw [hpr, ok_bind] at h
          rcases List.mem_cons.mp hmem with hn | hn
          · injection hn with hq hv
            subst hq; subst hv
            exact ⟨pr, hpr⟩
          · cases htail : latency_analysis bres rest with
            | error e => rw [htail, error_bind] at h; exact Except.noConfusion h
            | ok rep' => exact ih rep' htail p u hn

/-- Success of `platform_report` means the metric loop succeeded. -/
theorem platform_report_ok_render_lines (b? : Option (Dict String))
    (u : Dict String) (pr : Bool × List MetricLine)
    (h : platform_report b? u = .ok pr) :
    ∃ ls, render_lines b? u (ordered_names u) = .ok ls := by
  rw [platform_report] at h
  cases hls : render_lines b? u (ordered_names u) with
  | error e => rw [hls, error_bind] at h; exact Except.noConfusion h
  | ok ls => exact ⟨ls, rfl⟩

/-! ### C3 -/

/-- C3 counterexample: a single non-numeric under-test value (`"abc"` for
`gpu`'s `Latency`) makes `get_delta` raise `ValueError`, aborting the whole
report: `latency_analysis` produces no output at all, not even for the
well-formed remaining platform `cpu` or the remaining metrics of `gpu`. -/
theorem C3_counterexample :
    latency_analysis
        [("gpu", [("Concurrency", "1"), ("Latency", "10"), ("Inferences/Second", "100")]),
         ("cpu", [("Concurrency", "1"), ("Latency", "6"), ("Inferences/Second", "50")])]
        [("gpu", [("Concurrency", "1"), ("Latency", "abc"), ("Inferences/Second", "125")]),
         ("cpu", [("Concurrency", "1"), ("Latency", "5"), ("Inferences/Second", "60")])]
      = .error "ValueError"
    ∧ ¬ ∃ rep, latency_analysis
        [("gpu", [("Concurrency", "1"), ("Latency", "10"), ("Inferences/Second", "100")]),
         ("cpu", [("Concurrency", "1"), ("Latency", "6"), ("Inferences/Second", "50")])]
        [("gpu", [("Concurrency", "1"), ("Latency", "abc"), ("Inferences/Second", "125")]),
         ("cpu", [("Concurrency", "1"), ("Latency", "5"), ("Inferences/Second", "60")])]
      = .ok rep := by
  have h : latency_analysis
        [("gpu", [("Concurrency", "1"), ("Latency", "10"), ("Inferences/Second", "100")]),
         ("cpu", [("Concurrency", "1"), ("Latency", "6"), ("Inferences/Second", "50")])]
        [("gpu", [("Concurrency", "1"), ("Latency", "abc"), ("Inferences/Second", "125")]),
         ("cpu", [("Concurrency", "1"), ("Latency", "5"), ("Inferences/Second", "60")])]
      = .error "ValueError" := by with_unfolding_all rfl
  exact ⟨h, fun ⟨rep, hrep⟩ => Except.noConfusion (h ▸ hrep)⟩

/-- C3 amended: a failing metric row is never skipped or rendered as
`"n/a"`: the report completes only when every displayed metric row of every
under-test platform renders successfully, so a single non-numeric value
(whose `float` raises `ValueError` inside `get_delta`) aborts the whole
report. -/
theorem C3_amended_single_failure_aborts (bres ures : Dict (Dict String))
    (rep : List (String × Bool × List MetricLine))
    (hok : latency_analysis bres ures = .ok rep) :
    ∀ p u, (p, u) ∈ ures → ∀ name ∈ ordered_names u,
      ∃ line, render_line (dictFind? bres p) u name = .ok line := by
  intro p u hmem name hname
  obtain ⟨pr, hpr⟩ := latency_analysis_ok_mem bres ures rep hok p u hmem
  obtain ⟨ls, hls⟩ := platform_report_ok_render_lines _ u pr hpr
  exact render_lines_ok_mem _ u (ordered_names u) ls hls name hname

/-- Witness for C3 amended, at a one-platform report with no baseline. -/
theorem C3_amended_single_failure_aborts_witness :
    ∃ line, render_line (dictFind? [] "gpu") [("Inferences/Second", "10")]
      "Inferences/Second" = .ok line :=
  C3_amended_single_failure_aborts []
    [("gpu", [("Inferences/Second", "10")])]
    [("gpu", false, [⟨"Inferences/Second", none, "10", none⟩])]
    (by with_unfolding_all rfl) "gpu" [("Inferences/Second", "10")]
    (List.mem_singleton.mpr rfl) "Inferences/Second"
    (by rw [show ordered_names [("Inferences/Second", "10")]
          = ["Inferences/Second"] from rfl]; exact List.mem_singleton.mpr rfl)

/-! ### C8 -/

/-- With no baseline row, a metric name present in the under-test row
renders as a placeholder line. -/
theorem render_line_none_ok (u : Dict String) (n v : String)
    (h : dictFind? u n = some v) :
    render_line none u n = .ok ⟨n, none, v, none⟩ := by
  simp [render_line, pySubscript, h]

/-- When `"Inferences/Second"` is missing from the under-test row, the
metric loop over the sorted names followed by the appended
`"Inferences/Second"` ends in `KeyError`. -/
theorem render_lines_none_append_keyerror (u : Dict String)
    (hIPS : dictFind? u INFERPERSEC = none) :
    ∀ names, (∀ n ∈ names, n ∈ dictKeys u) →
      render_lines none u (names ++ [INFERPERSEC]) = .error "KeyError" := by
  intro names
  induction names with
  | nil =>
      intro _
      simp [render_lines, render_line, pySubscript, hIPS]
  | cons n rest ih =>
      intro hkeys
      obtain ⟨v, hv⟩ := (mem_dictKeys_iff u n).mp (hkeys n (List.mem_cons_self n rest))
      rw [List.cons_append, render_lines, render_line_none_ok u n v hv, ok_bind,
        ih (fun m hm => hkeys m (List.mem_cons_of_mem n hm)), error_bind]

/-- C8: `latency_analysis` unconditionally appends `"Inferences/Second"`
and subscripts the under-test row with it, so a platform row lacking that
key makes the metric loop raise `KeyError` (shown for the no-baseline case,
where every other row renders as a placeholder), and the platform's section
can never be produced, whatever the baseline. -/
theorem C8_missing_inferpersec_keyerror (u : Dict String)
    (h : dictFind? u INFERPERSEC = none) :
    platform_report none u = .error "KeyError"
    ∧ ∀ b?, ¬ ∃ out, platform_report b? u = .ok out := by
  constructor
  · rw [platform_report, ordered_names,
      render_lines_none_append_keyerror u h _ ?_, error_bind]
    intro n hn
    have hfilter := (List.Perm.mem_iff
      (List.perm_insertionSort strLe _)).mp hn
    exact List.mem_of_mem_filter hfilter
  · rintro b? ⟨out, hout⟩
    obtain ⟨ls, hls⟩ := platform_report_ok_render_lines b? u out hout
    obtain ⟨line, hline⟩ := render_lines_ok_mem b? u (ordered_names u) ls hls
      INFERPERSEC (by
        rw [ordered_names]
        exact List.mem_append_right _ (List.mem_singleton.mpr rfl))
    rw [show render_line b? u INFERPERSEC = .error "KeyError" from by
      simp [render_line, pySubscript, h]] at hline
    exact Except.noConfusion hline

/-- Witness for C8 at an under-test row holding only a `Latency` metric. -/
theorem C8_missing_inferpersec_keyerror_witness :
    platform_report none [("Latency", "10")] = .error "KeyError" :=
  (C8_missing_inferpersec_keyerror [("Latency", "10")]
    (by with_unfolding_all rfl)).1

/-! ### C9 -/

/-- C9: the concurrency-mismatch warning of `latency_analysis` compares the
raw stored strings, while row selection in `read_results` compares parsed
integers: for a platform present in both mappings the warning fires exactly
when both rows store a `"Concurrency"` entry and the two strings differ.
In particular `"01"` (baseline) versus `"1"` (under-test) both match
requested concurrency 1 — `read_results` selects both rows and stores the
raw strings — yet the warning still fires because the strings differ. -/
theorem C9_warning_iff_raw_string_mismatch (b u : Dict String) :
    (concurrency_warning (some b) u = true
      ↔ ∃ bc uc, dictFind? b CONCURRENCY = some bc
          ∧ dictFind? u CONCURRENCY = some uc ∧ bc ≠ uc)
    ∧ read_results 1 [⟨"gpu_base.csv", true,
        [["Concurrency", "Latency"], ["01", "10"]]⟩]
      = .ok [("gpu", [("Concurrency", "01"), ("Latency", "10")])]
    ∧ read_results 1 [⟨"gpu_test.csv", true,
        [["Concurrency", "Latency"], ["1", "8"]]⟩]
      = .ok [("gpu", [("Concurrency", "1"), ("Latency", "8")])]
    ∧ concurrency_warning (some [("Concurrency", "01"), ("Latency", "10")])
        [("Concurrency", "1"), ("Latency", "8")] = true
    ∧ pyIntParse "01" = some 1 ∧ pyIntParse "1" = some 1 := by
  refine ⟨?_, by with_unfolding_all rfl, by with_unfolding_all rfl,
    by with_unfolding_all rfl, by with_unfolding_all rfl,
    by with_unfolding_all rfl⟩
  cases hbc : dictFind? b CONCURRENCY with
  | none => simp [concurrency_warning, hbc]
  | some bc =>
      cases huc : dictFind? u CONCURRENCY with
      | none => simp [concurrency_warning, hbc, huc]
      | some uc => simp [concurrency_warning, hbc, huc]

/-! ### C5: dict and directory-scan lemmas -/

/-- `m.any (fun x => x.1 = k)` detects key membership. -/
theorem any_key_iff_mem {α : Type} (m : Dict α) (k : String) :
    m.any (fun x => x.1 = k) = true ↔ k ∈ dictKeys m := by
  rw [List.any_eq_true]
  simp only [dictKeys, List.mem_map, decide_eq_true_eq]

/-- Keys after `dictSet`: unchanged when the key was present, the new key
appended otherwise. -/
theorem dictKeys_dictSet {α : Type} (m : Dict α) (k : String) (v : α) :
    dictKeys (dictSet m k v)
      = if m.any (fun x => x.1 = k) then dictKeys m else dictKeys m ++ [k] := by
  unfold dictSet
  by_cases h : m.any (fun x => x.1 = k) = true
  · rw [if_pos h, if_pos h, dictKeys, dictKeys, List.map_map]
    apply List.map_congr_left
    intro x _
    by_cases hx : x.1 = k
    · simp [hx]
    · simp [hx]
  · rw [if_neg h, if_neg h, dictKeys, dictKeys, List.map_append]
    rfl

/-- Membership in the keys after `dictSet`. -/
theorem mem_dictKeys_dictSet {α : Type} (m : Dict α) (k : String) (v : α)
    (p : String) :
    p ∈ dictKeys (dictSet m k v) ↔ p = k ∨ p ∈ dictKeys m := by
  rw [dictKeys_dictSet]
  by_cases h : m.any (fun x => x.1 = k) = true
  · rw [if_pos h]
    have hk : k ∈ dictKeys m := (any_key_iff_mem m k).mp h
    exact ⟨Or.inr, fun hp => hp.elim (fun e => e ▸ hk) id⟩
  · rw [if_neg h]
    simp [List.mem_append, or_comm]

/-- `dictSet` preserves key distinctness. -/
theorem nodup_dictKeys_dictSet {α : Type} (m : Dict α) (k : String) (v : α)
    (h : (dictKeys m).Nodup) : (dictKeys (dictSet m k v)).Nodup := by
  rw [dictKeys_dictSet]
  by_cases hany : m.any (fun x => x.1 = k) = true
  · rwa [if_pos hany]
  · rw [if_neg hany]
    have hk : k ∉ dictKeys m := fun hmem => hany ((any_key_iff_mem m k).mpr hmem)
    refine List.nodup_append.mpr ⟨h, List.nodup_singleton k, ?_⟩
    intro a ha hb
    rw [List.mem_singleton] at hb
    exact hk (hb ▸ ha)

/-- Unfolding a dict lookup one entry at a time. -/
theorem dictFind?_cons {α : Type} (q : String) (w : α) (rest : Dict α)
    (p : String) :
    dictFind? ((q, w) :: rest) p = if q = p then some w else dictFind? rest p := by
  by_cases h : q = p <;> simp [dictFind?, List.find?_cons, h]

/-- Looking up a key in the overwrite branch of `dictSet`. -/
theorem dictFind?_map_replace {α : Type} (k : String) (v : α) :
    ∀ (m : Dict α) (p : String),
      dictFind? (m.map (fun x => if x.1 = k then (k, v) else x)) p
        = if p = k then Option.map (fun _ => v) (dictFind? m k)
          else dictFind? m p := by
  intro m
  induction m with
  | nil => intro p; by_cases hp : p = k <;> simp [dictFind?, hp]
  | cons a rest ih =>
      obtain ⟨q, w⟩ := a
      intro p
      simp only [List.map_cons]
      by_cases hqk : q = k
      · by_cases hpq : p = q
        · simp [hqk, hpq, dictFind?_cons, ih]
        · have hpk : ¬ p = k := fun e => hpq (e.trans hqk.symm)
          simp [hqk, hpq, hpk, Ne.symm hpq, Ne.symm hpk, dictFind?_cons, ih]
      · by_cases hpq : p = q
        · have hpk : ¬ p = k := fun e => hqk (hpq.symm.trans e)
          simp [hqk, hpq, hpk, Ne.symm hpk, dictFind?_cons, ih]
        · simp [hqk, hpq, Ne.symm hpq, dictFind?_cons, ih]

/-- Looking up a key after `dictSet`: the stored value at the written key,
the old lookup elsewhere. -/
theorem dictFind?_dictSet {α : Type} (m : Dict α) (k : String) (v : α)
    (p : String) :
    dictFind? (dictSet m k v) p = if p = k then some v else dictFind? m p := by
  unfold dictSet
  by_cases hany : m.any (fun x => x.1 = k) = true
  · rw [if_pos hany, dictFind?_map_replace]
    by_cases hpk : p = k
    · rw [if_pos hpk, if_pos hpk]
      obtain ⟨w, hw⟩ := (mem_dictKeys_iff m k).mp ((any_key_iff_mem m k).mp hany)
      rw [hw]
      rfl
    · rw [if_neg hpk, if_neg hpk]
  · rw [if_neg hany]
    by_cases hpk : p = k
    · subst hpk
      rw [if_pos rfl]
      have hnone : List.find? (fun x => decide (x.1 = p)) m = none := by
        rw [List.find?_eq_none]
        intro x hx hdec
        exact hany (List.any_eq_true.mpr ⟨x, hx, hdec⟩)
      simp [dictFind?, List.find?_append, hnone, List.find?_cons]
    · have hsingle : List.find? (fun x => decide (x.1 = p)) [(k, v)] = none := by
        simp [List.find?_cons, Ne.symm hpk]
      simp [dictFind?, List.find?_append, hsingle, hpk]

/-- Key membership across the directory scan: a platform is a key exactly
when some regular `*.csv` file in the listing has it as prefix (or it was
already in the accumulator). -/
theorem mem_dictKeys_scan (p : String) :
    ∀ (files : List DirFile) (acc : Dict DirFile),
      p ∈ dictKeys (files.foldl scanStep acc)
        ↔ (∃ f, f ∈ files ∧ (f.isFile = true ∧ endswith f.name ".csv" = true)
            ∧ platformOf f.name = p)
          ∨ p ∈ dictKeys acc := by
  intro files
  induction files with
  | nil => intro acc; simp
  | cons f rest ih =>
      intro acc
      rw [List.foldl_cons, ih]
      unfold scanStep
      by_cases hf : f.isFile = true ∧ endswith f.name ".csv" = true
      · rw [if_pos hf]
        constructor
        · rintro (⟨g, hg, hcond, hplat⟩ | hacc)
          · exact Or.inl ⟨g, List.mem_cons_of_mem f hg, hcond, hplat⟩
          · rcases (mem_dictKeys_dictSet acc (platformOf f.name) f p).mp hacc with
              he | hacc'
            · exact Or.inl ⟨f, List.mem_cons_self f rest, hf, he.symm⟩
            · exact Or.inr hacc'
        · rintro (⟨g, hg, hcond, hplat⟩ | hacc)
          · rcases List.mem_cons.mp hg with rfl | hg'
            · exact Or.inr ((mem_dictKeys_dictSet acc (platformOf g.name) g p).mpr
                (Or.inl hplat.symm))
            · exact Or.inl ⟨g, hg', hcond, hplat⟩
          · exact Or.inr ((mem_dictKeys_dictSet acc (platformOf f.name) f p).mpr
              (Or.inr hacc))
      · rw [if_neg hf]
        constructor
        · rintro (⟨g, hg, hcond, hplat⟩ | hacc)
          · exact Or.inl ⟨g, List.mem_cons_of_mem f hg, hcond, hplat⟩
          · exact Or.inr hacc
        · rintro (⟨g, hg, hcond, hplat⟩ | hacc)
          · rcases List.mem_cons.mp hg with rfl | hg'
            · exact absurd hcond hf
            · exact Or.inl ⟨g, hg', hcond, hplat⟩
          · exact Or.inr hacc

/-- The directory scan keeps the platform keys distinct. -/
theorem nodup_dictKeys_scan :
    ∀ (files : List DirFile) (acc : Dict DirFile),
      (dictKeys acc).Nodup → (dictKeys (files.foldl scanStep acc)).Nodup := by
  intro files
  induction files with
  | nil => intro acc h; simpa using h
  | cons f rest ih =>
      intro acc h
      rw [List.foldl_cons]
      apply ih
      unfold scanStep
      by_cases hf : f.isFile = true ∧ endswith f.name ".csv" = true
      · rw [if_pos hf]; exact nodup_dictKeys_dictSet _ _ _ h
      · rwa [if_neg hf]

/-- Lookup across the directory scan computes the last scanned matching
file. -/
theorem dictFind?_scan (p : String) :
    ∀ (files : List DirFile) (acc : Dict DirFile),
      dictFind? (files.foldl scanStep acc) p
        = (lastScannedMatch p files).elim (dictFind? acc p) some := by
  intro files
  induction files with
  | nil => intro acc; simp [lastScannedMatch]
  | cons f rest ih =>
      intro acc
      rw [List.foldl_cons, ih]
      by_cases hsel : (f.isFile && endswith f.name ".csv"
          && decide (platformOf f.name = p)) = true
      · have hlast : lastScannedMatch p (f :: rest)
            = some ((lastScannedMatch p rest).getD f) := by
          simp only [lastScannedMatch, List.filter_cons, if_pos hsel,
            List.getLast?_cons]
        rw [hlast]
        cases hrest : lastScannedMatch p rest with
        | some g => simp [hrest]
        | none =>
            simp only [hrest, Option.elim, Option.getD]
            have hs : (f.isFile = true ∧ endswith f.name ".csv" = true)
                ∧ platformOf f.name = p := by
              simpa using hsel
            rw [scanStep, if_pos hs.1, dictFind?_dictSet, hs.2, if_pos rfl]
      · have hlast : lastScannedMatch p (f :: rest) = lastScannedMatch p rest := by
          simp only [lastScannedMatch, List.filter_cons, if_neg hsel]
        rw [hlast]
        cases hrest : lastScannedMatch p rest with
        | some g => simp
        | none =>
            simp only [Option.elim]
            rw [scanStep]
            by_cases hf : f.isFile = true ∧ endswith f.name ".csv" = true
            · have hplat : ¬ platformOf f.name = p := by
                intro he
                exact hsel (by simp [hf.1, hf.2, he])
              rw [if_pos hf, dictFind?_dictSet, if_neg (fun e => hplat e.symm)]
            · rw [if_neg hf]

/-- When the per-file loop of `read_results` succeeds it produces one
metrics entry per `csvs` entry, in order. -/
theorem processCsvs_ok_keys (c : Int) :
    ∀ (l : List (String × DirFile)) (m : Dict (Dict String)),
      processCsvs c l = .ok m → dictKeys m = dictKeys l := by
  intro l
  induction l with
  | nil =>
      intro m h
      rw [processCsvs] at h
      cases h
      rfl
  | cons qf rest ih =>
      obtain ⟨q, f⟩ := qf
      intro m h
      rw [processCsvs] at h
      cases hd : parseFile c f.rows with
      | error e => rw [hd, error_bind] at h; exact Except.noConfusion h
      | ok d =>
          rw [hd, ok_bind] at h
          cases ht : processCsvs c rest with
          | error e => rw [ht, error_bind] at h; exact Except.noConfusion h
          | ok tail =>
              rw [ht, ok_bind] at h
              cases h
              simp only [dictKeys, List.map_cons]
              exact congrArg (List.cons q) (ih tail ht)

/-- When the per-file loop succeeds, each platform's metrics come from
parsing that platform's file in `csvs`. -/
theorem processCsvs_ok_find (c : Int) :
    ∀ (l : List (String × DirFile)) (m : Dict (Dict String)),
      processCsvs c l = .ok m →
      ∀ (p : String) (d : Dict String), dictFind? m p = some d →
        ∃ f, dictFind? l p = some f ∧ parseFile c f.rows = .ok d := by
  intro l
  induction l with
  | nil =>
      intro m h p d hfind
      rw [processCsvs] at h
      cases h
      simp [dictFind?] at hfind
  | cons qf rest ih =>
      obtain ⟨q, g⟩ := qf
      intro m h p d hfind
      rw [processCsvs] at h
      cases hd : parseFile c g.rows with
      | error e => rw [hd, error_bind] at h; exact Except.noConfusion h
      | ok d' =>
          rw [hd, ok_bind] at h
          cases ht : processCsvs c rest with
          | error e => rw [ht, error_bind] at h; exact Except.noConfusion h
          | ok tail =>
              rw [ht, ok_bind] at h
              cases h
              rw [dictFind?_cons] at hfind
              by_cases hqp : q = p
              · rw [if_pos hqp] at hfind
                cases hfind
                exact ⟨g, by rw [dictFind?_cons, if_pos hqp], hd⟩
              · rw [if_neg hqp] at hfind
                obtain ⟨f, hlf, hpf⟩ := ih tail ht p d hfind
                exact ⟨f, by rw [dictFind?_cons, if_neg hqp]; exact hlf, hpf⟩

/-- C5: when `read_results` succeeds, its key set is exactly the set of
platform prefixes of the regular `*.csv` files in the directory, with no
duplicate keys, and each platform's metrics are parsed from the last
scanned file with that prefix.  Concretely, `A_x.csv` and `B_y.csv` give
exactly the keys `A` and `B`, and of two files with prefix `A` the later
one's row wins, without crashing. -/
theorem C5_read_results_keys (concurrency : Int) (files : List DirFile)
    (m : Dict (Dict String)) (h : read_results concurrency files = .ok m) :
    (dictKeys m).Nodup
    ∧ (∀ p, p ∈ dictKeys m
        ↔ ∃ f, f ∈ files ∧ (f.isFile = true ∧ endswith f.name ".csv" = true)
            ∧ platformOf f.name = p)
    ∧ (∀ p d, dictFind? m p = some d →
        ∃ f, lastScannedMatch p files = some f
          ∧ parseFile concurrency f.rows = .ok d)
    ∧ read_results 1 [⟨"A_x.csv", true, [["Concurrency"], ["1"]]⟩,
        ⟨"B_y.csv", true, [["Concurrency"], ["1"]]⟩]
      = .ok [("A", [("Concurrency", "1")]), ("B", [("Concurrency", "1")])]
    ∧ read_results 1 [⟨"A_x.csv", true, [["Concurrency", "Latency"], ["1", "10"]]⟩,
        ⟨"A_y.csv", true, [["Concurrency", "Latency"], ["1", "99"]]⟩]
      = .ok [("A", [("Concurrency", "1"), ("Latency", "99")])] := by
  rw [read_results] at h
  have hkeys : dictKeys m = dictKeys (buildCsvs files) :=
    processCsvs_ok_keys concurrency (buildCsvs files) m h
  refine ⟨?_, ?_, ?_, by with_unfolding_all rfl, by with_unfolding_all rfl⟩
  · rw [hkeys]
    exact nodup_dictKeys_scan files [] (by simp [dictKeys])
  · intro p
    rw [hkeys, buildCsvs, mem_dictKeys_scan]
    simp [dictKeys]
  · intro p d hfind
    obtain ⟨f, hlf, hpf⟩ :=
      processCsvs_ok_find concurrency (buildCsvs files) m h p d hfind
    refine ⟨f, ?_, hpf⟩
    rw [buildCsvs, dictFind?_scan] at hlf
    cases hrest : lastScannedMatch p files with
    | none => rw [hrest] at hlf; simp [dictFind?] at hlf
    | some g => rw [hrest] at hlf; simpa using hlf

/-- Witness for C5 at a directory holding `A_x.csv` and `B_y.csv`. -/
theorem C5_read_results_keys_witness :
    (dictKeys [("A", [("Concurrency", "1")]), ("B", [("Concurrency", "1")])]).Nodup :=
  (C5_read_results_keys 1
    [⟨"A_x.csv", true, [["Concurrency"], ["1"]]⟩,
     ⟨"B_y.csv", true, [["Concurrency"], ["1"]]⟩]
    [("A", [("Concurrency", "1")]), ("B", [("Concurrency", "1")])]
    (by with_unfolding_all rfl)).1

end PerfAnalysis
